import Mathlib

/-!
A shallow embedding in Lean 4 of the query-filter utilities of a
TypeScript backend (`src/utils/lib/queryFilters/index.ts`), together with
theorems checking the natural-language specification of those utilities.

The file has three parts:
1. models of the JavaScript host primitives the code relies on
   (string `split`/`trim`/`includes`, anchored single-occurrence brace
   stripping, property assignment on objects, and — as parameters or
   explicit fragment models — `Number`, `Date.parse`, `JSON.parse`);
2. the three functions of the source file, `buildFilterObject`,
   `validateFilterFields` and `stringToObject`, translated clause by
   clause;
3. theorems about those definitions.

JavaScript objects are modelled as insertion-ordered association lists
with unique keys maintained by `setKey` (property assignment).  The
`console.warn` side effect of `validateFilterFields` is modelled by
returning, next to the sanitized mapping, the ordered list of field
names the function warns about (each warning message names exactly the
rejected field).  Thrown exceptions are modelled with `Except`; a
function returning outside `Except` throws nothing.
-/

namespace QueryFilters

/-- JavaScript runtime values that can appear in a filter mapping:
`undefined`, `null`, booleans, numbers, strings, `Date` objects (carrying
the string the date was constructed from) and plain objects (ordered
key/value lists).  Numbers are modelled as integers: every numeric value
produced or consumed by the claims under study is integral. -/
inductive JsValue where
  | undefined : JsValue
  | nullv : JsValue
  | bool : Bool → JsValue
  | num : Int → JsValue
  | str : String → JsValue
  | date : String → JsValue
  | obj : List (String × JsValue) → JsValue

/-- Splits a character list at every occurrence of the separator `c`.
Model of JavaScript `String.prototype.split` with a one-character
separator: the empty string splits to `[""]`, separators at the ends
produce empty segments. -/
def splitC (c : Char) : List Char → List (List Char)
  | [] => [[]]
  | x :: xs =>
    let r := splitC c xs
    if x = c then [] :: r
    else
      match r with
      | [] => [[x]]
      | y :: ys => (x :: y) :: ys

/-- Model of JavaScript `str.split(sep)` for a one-character separator. -/
def jsSplit (c : Char) (s : String) : List String :=
  (splitC c s.data).map String.mk

/-- Model of JavaScript `String.prototype.trim`: removes leading and
trailing whitespace. -/
def jsTrim (s : String) : String :=
  ⟨((s.data.dropWhile Char.isWhitespace).reverse.dropWhile Char.isWhitespace).reverse⟩

/-- Model of JavaScript `str.includes(c)` for a one-character needle. -/
def jsIncludes (c : Char) (s : String) : Bool :=
  s.data.contains c

/-- Model of `str.replace(/^\x7b/, "")`: removes a single leading
opening brace when present. -/
def stripLeadBrace (s : String) : String :=
  match s.data with
  | '\x7b' :: rest => ⟨rest⟩
  | _ => s

/-- Model of `str.replace(/\x7d$/, "")`: removes a single trailing
closing brace when present. -/
def stripTrailBrace (s : String) : String :=
  if s.data.getLast? = some '\x7d' then ⟨s.data.dropLast⟩ else s

/-- Model of JavaScript property assignment `m[k] = v` on an ordered
object: overwrites in place when the key exists, appends otherwise. -/
def setKey (m : List (String × JsValue)) (k : String) (v : JsValue) : List (String × JsValue) :=
  if m.any (fun p => p.1 == k) then
    m.map (fun p => if p.1 == k then (k, v) else p)
  else
    m ++ [(k, v)]

/-- Model of JavaScript property read `m[k]` on an object: the stored
value when the key exists, `undefined` otherwise. -/
def getKey (m : List (String × JsValue)) (k : String) : JsValue :=
  match List.lookup k m with
  | some v => v
  | none => .undefined

/-- The host functions of the JavaScript runtime that the source code
calls but that are not defined in the repository.  `dateParse` models
`Date.parse` (`none` for `NaN`, `some t` for a timestamp of `t`
milliseconds since the epoch); `toNumber` models `Number` coercion of a
string (`none` for `NaN`); `jsonParse` models `JSON.parse` (`none` when
parsing throws a `SyntaxError`).  Theorems quantified over a `JsEnv`
hold for every host behaviour. -/
structure JsEnv where
  dateParse : String → Option Int
  toNumber : String → Option Int
  jsonParse : String → Option JsValue

/-- Digits of a decimal numeral to a natural number; `none` unless the
string is nonempty and all digits. -/
def decDigits (s : String) : Option Nat :=
  if s.data ≠ [] ∧ s.data.all Char.isDigit then
    some (s.data.foldl (fun a c => a * 10 + (c.toNat - 48)) 0)
  else
    none

/-- Fragment model of the host `Number` string coercion, faithful on the
decimal-integer fragment exercised here: nonnegative all-digit strings
coerce to the corresponding integer, every other string in this
development is `NaN` (`none`). -/
def jsNumber (s : String) : Option Int :=
  (decDigits s).map Int.ofNat

/-- Whether `y` is a leap year (proleptic Gregorian, as used by the
ECMAScript date type). -/
def isLeapYear (y : Nat) : Bool :=
  y % 4 = 0 && (y % 100 ≠ 0 || y % 400 = 0)

/-- Number of days in month `m` of year `y`. -/
def daysInMonth (y m : Nat) : Nat :=
  if m = 2 then (if isLeapYear y then 29 else 28)
  else if m = 4 ∨ m = 6 ∨ m = 9 ∨ m = 11 then 30
  else 31

/-- Days from the Unix epoch to the civil date `y-m-d` (standard
era-based civil-calendar computation). -/
def daysFromCivil (y m d : Nat) : Int :=
  let yAdj : Nat := if m ≤ 2 then y - 1 else y
  let era : Nat := yAdj / 400
  let yoe : Nat := yAdj - era * 400
  let mp : Nat := if 2 < m then m - 3 else m + 9
  let doy : Nat := (153 * mp + 2) / 5 + (d - 1)
  let doe : Nat := yoe * 365 + yoe / 4 - yoe / 100 + doy
  (era * 146097 + doe : Nat) - (719468 : Int)

/-- Fragment model of the host `Date.parse`, faithful on the fragment
exercised here: ISO `YYYY-MM-DD` date-only strings are interpreted as
midnight UTC and yield their epoch timestamp in milliseconds; every
other string in this development yields `NaN` (`none`). -/
def jsDateParse (s : String) : Option Int :=
  match jsSplit '-' s with
  | [ys, ms, ds] =>
    if ys.data.length = 4 ∧ ms.data.length = 2 ∧ ds.data.length = 2 then
      match decDigits ys, decDigits ms, decDigits ds with
      | some y, some m, some d =>
        if 1 ≤ m ∧ m ≤ 12 ∧ 1 ≤ d ∧ d ≤ daysInMonth y m then
          some (daysFromCivil y m d * 86400000)
        else
          none
      | _, _, _ => none
    else
      none
  | _ => none

/-- Fragment model of the host `JSON.parse`, faithful on the fragment
exercised here: the literals `null`, `true`, `false`, the empty object
text, and nonnegative decimal integer numerals, with surrounding
whitespace skipped; every other text in this development is rejected
(`none`, i.e. `SyntaxError`). -/
def jsJsonParse (s : String) : Option JsValue :=
  let t := jsTrim s
  if t = "null" then some .nullv
  else if t = "true" then some (.bool true)
  else if t = "false" then some (.bool false)
  else if t = "\x7b\x7d" then some (.obj [])
  else (decDigits t).map (fun n => .num (Int.ofNat n))

/-- The concrete host environment: the fragment models above. -/
def jsEnv : JsEnv :=
  { dateParse := jsDateParse, toNumber := jsNumber, jsonParse := jsJsonParse }

/-- The raw `filterQuery` argument of `buildFilterObject` (typed `any`
in the source, read from `req.query`): `undefined`, `null` or a string. -/
inductive FilterQuery where
  | undefined : FilterQuery
  | nullv : FilterQuery
  | str : String → FilterQuery

/-- Function `buildFilterObject` from the source: starts from `\x7b\x7d`; when
`filterQuery` is truthy (a nonempty string here — `undefined`, `null`
and `""` are falsy), parses it with `JSON.parse` and returns the parsed
value, rethrowing any parse failure as
`Error("Invalid filter query format")`; otherwise returns the empty
object.  The thrown error is modelled as `Except.error`. -/
def buildFilterObject (env : JsEnv) (filterQuery : FilterQuery) : Except String JsValue :=
  match filterQuery with
  | .undefined => .ok (.obj [])
  | .nullv => .ok (.obj [])
  | .str s =>
    if s = "" then .ok (.obj [])
    else
      match env.jsonParse s with
      | some v => .ok v
      | none => .error "Invalid filter query format"

/-- The raw `filter` argument of `validateFilterFields` and the `str`
argument of `stringToObject` (typed `any`/`string` in the source):
`undefined`, `null`, a string, or an already-parsed object. -/
inductive RawFilter where
  | undefined : RawFilter
  | nullv : RawFilter
  | str : String → RawFilter
  | obj : List (String × JsValue) → RawFilter

/-- The value branch of `stringToObject` (lines 71-88 of the source):
if the value contains a colon, split on `:` (all segments trimmed), take
the first segment as operator and the second as operand; when
`Date.parse(operand)` is truthy (a timestamp that is neither `NaN` nor
`0`) store `\x7b operator: new Date(operand) \x7d`, else store
`\x7b operator: operand \x7d` with the operand as a string.  Without a
colon, store `Number(value)` unless that is `NaN`, else the raw string. -/
def parseValue (env : JsEnv) (value : String) : JsValue :=
  if jsIncludes ':' value then
    match (jsSplit ':' value).map jsTrim with
    | operator :: operand :: _ =>
      match env.dateParse operand with
      | some t =>
        if t ≠ 0 then .obj [(operator, .date operand)]
        else .obj [(operator, .str operand)]
      | none => .obj [(operator, .str operand)]
    | _ => .str value
  else
    match env.toNumber value with
    | some n => .num n
    | none => .str value

/-- One `key=value` pair of `stringToObject`: split on `=` with every
segment trimmed, destructure the first segment as key and the second as
value (`undefined` when absent), and keep the pair only when both are
truthy (present and nonempty). -/
def parsePair (env : JsEnv) (pair : String) : Option (String × JsValue) :=
  match (jsSplit '=' pair).map jsTrim with
  | key :: value :: _ =>
    if key ≠ "" ∧ value ≠ "" then some (key, parseValue env value) else none
  | _ => none

/-- Function `stringToObject` from the source: falsy input or the exact text
`"\x7b\x7d"` gives the empty object; an object passes through unchanged;
otherwise the string is trimmed, one leading `\x7b` and one trailing
`\x7d` are stripped, the rest is split on `,`, and each pair is parsed
with `parsePair` and assigned into the result object. -/
def stringToObject (env : JsEnv) (input : RawFilter) : List (String × JsValue) :=
  match input with
  | .undefined => []
  | .nullv => []
  | .obj m => m
  | .str s =>
    if s = "" ∨ s = "\x7b\x7d" then []
    else
      (jsSplit ',' (stripTrailBrace (stripLeadBrace (jsTrim s)))).foldl
        (fun result pair =>
          match parsePair env pair with
          | some kv => setKey result kv.1 kv.2
          | none => result)
        []

/-- Schema field metadata, as tested by `validateFilterFields`:
`objf attrs` is an object-typed metadata value with attribute names
`attrs` (it passes `field && typeof field === "object"`, and
`"q" ∈ attrs` models `"q" in field`); `atom` is any other metadata
value — a primitive, a constructor function such as `String`, or a falsy
value — all of which fail that test. -/
inductive SchemaField where
  | atom : SchemaField
  | objf : List String → SchemaField

/-- The queryable-marker test of `validateFilterFields`, line 36:
`field && typeof field === "object" && "q" in field` applied to the
schema entry looked up for a key (`none` when the key is absent). -/
def isQueryableField : Option SchemaField → Bool
  | some (.objf attrs) => attrs.contains "q"
  | _ => false

/-- One iteration of the `for (const key in filterObject)` loop of
`validateFilterFields`: keys passing the schema-membership or timestamp
test and then the queryable-marker or timestamp test are copied into the
sanitized object; keys passing the first test but failing the second are
appended to the warning log; all other keys are skipped silently. -/
def validateStep (schema : List (String × SchemaField)) (filterObject : List (String × JsValue))
    (acc : List (String × JsValue) × List String) (kv : String × JsValue) :
    List (String × JsValue) × List String :=
  let key := kv.1
  if (List.lookup key schema).isSome ∨ key = "createdAt" ∨ key = "updatedAt" then
    if isQueryableField (List.lookup key schema) ∨ key = "createdAt" ∨ key = "updatedAt" then
      (setKey acc.1 key (getKey filterObject key), acc.2)
    else
      (acc.1, acc.2 ++ [key])
  else
    acc

/-- Function `validateFilterFields` from the source: normalizes `filter` through
`stringToObject`, then runs the loop `validateStep` over the normalized
entries of the object in order.  The first component is the returned
sanitized object; the second is the ordered list of field names passed
to `console.warn` (the source emits one message per warned field, naming
that field).  The function is total: it throws nothing. -/
def validateFilterFields (env : JsEnv) (filter : RawFilter)
    (schema : List (String × SchemaField)) : List (String × JsValue) × List String :=
  let filterObject := stringToObject env filter
  filterObject.foldl (validateStep schema filterObject) ([], [])

/-- The keys of an object model, in order. -/
def keys (m : List (String × JsValue)) : List String :=
  m.map Prod.fst

/-- A key the sanitization keeps: queryable per the schema, or one of
the two hardcoded timestamp fields. -/
def allowedKey (schema : List (String × SchemaField)) (k : String) : Bool :=
  isQueryableField (List.lookup k schema) || k == "createdAt" || k == "updatedAt"

/-- A key the sanitization warns about: present in the schema, not
queryable, and not a timestamp field. -/
def warnedKey (schema : List (String × SchemaField)) (k : String) : Bool :=
  (List.lookup k schema).isSome && !isQueryableField (List.lookup k schema)
    && !(k == "createdAt") && !(k == "updatedAt")

lemma isQueryableField_isSome (o : Option SchemaField) (h : isQueryableField o = true) :
    o.isSome = true := by
  cases o with
  | none => simp [isQueryableField] at h
  | some f => rfl

lemma allowed_not_warned (schema : List (String × SchemaField)) (k : String)
    (h : allowedKey schema k = true) : warnedKey schema k = false := by
  unfold allowedKey at h
  unfold warnedKey
  cases hQ : isQueryableField (List.lookup k schema) with
  | true => simp [hQ]
  | false =>
    rw [hQ] at h
    simp only [Bool.false_or, Bool.or_eq_true, beq_iff_eq] at h
    rcases h with h | h <;> simp [h, hQ]

/-- Lemma: `validateStep` written through the `allowedKey`/`warnedKey`
classification of its key. -/
lemma validateStep_eq (schema : List (String × SchemaField)) (fo : List (String × JsValue))
    (acc : List (String × JsValue) × List String) (kv : String × JsValue) :
    validateStep schema fo acc kv =
      if allowedKey schema kv.1 then (setKey acc.1 kv.1 (getKey fo kv.1), acc.2)
      else if warnedKey schema kv.1 then (acc.1, acc.2 ++ [kv.1])
      else acc := by
  unfold validateStep allowedKey warnedKey
  by_cases hc : kv.1 = "createdAt"
  · simp [hc]
  · by_cases hu : kv.1 = "updatedAt"
    · simp [hc, hu]
    · cases hQ : isQueryableField (List.lookup kv.1 schema) with
      | true =>
        have hS := isQueryableField_isSome _ hQ
        simp [hc, hu, hQ, hS]
      | false =>
        cases hS : (List.lookup kv.1 schema).isSome with
        | true => simp [hc, hu, hQ, hS]
        | false => simp [hc, hu, hQ, hS]

lemma keys_overwrite (m : List (String × JsValue)) (k : String) (v : JsValue) :
    keys (m.map (fun p => if p.1 == k then (k, v) else p)) = keys m := by
  induction m with
  | nil => rfl
  | cons p t ih =>
    simp only [keys, List.map_cons] at ih ⊢
    by_cases hp : p.1 = k
    · rw [if_pos (by simp [hp])]
      simp only [List.map_cons, ih]
      simp [hp]
    · rw [if_neg (by simp [hp])]
      simp only [List.map_cons, ih]

lemma keys_setKey_mem (m : List (String × JsValue)) (k a : String) (v : JsValue) :
    a ∈ keys (setKey m k v) ↔ a ∈ keys m ∨ a = k := by
  unfold setKey
  by_cases h : m.any (fun p => p.1 == k) = true
  · rw [if_pos h, keys_overwrite]
    have hk : k ∈ keys m := by
      rcases List.any_eq_true.1 h with ⟨p, hp, hpk⟩
      rw [beq_iff_eq] at hpk
      exact hpk ▸ List.mem_map_of_mem Prod.fst hp
    constructor
    · exact Or.inl
    · rintro (ha | rfl)
      · exact ha
      · exact hk
  · rw [if_neg h]
    unfold keys
    simp

/-- The loop of `validateFilterFields`, characterized: the keys of the
accumulated sanitized object are the accumulator keys plus the iterated
keys that are allowed, and the warning log extends the accumulator log
by exactly the iterated keys classified `warnedKey`, in order. -/
lemma validate_foldl_spec (schema : List (String × SchemaField)) (fo : List (String × JsValue)) :
    ∀ (l : List (String × JsValue)) (acc : List (String × JsValue) × List String),
      (∀ a, a ∈ keys (l.foldl (validateStep schema fo) acc).1 ↔
          a ∈ keys acc.1 ∨ (a ∈ keys l ∧ allowedKey schema a = true)) ∧
      (l.foldl (validateStep schema fo) acc).2 = acc.2 ++ (keys l).filter (warnedKey schema) := by
  intro l
  induction l with
  | nil =>
    intro acc
    exact ⟨fun a => by simp [keys], by simp [keys]⟩
  | cons kv t ih =>
    intro acc
    rw [List.foldl_cons, validateStep_eq]
    by_cases hA : allowedKey schema kv.1 = true
    · have hW : warnedKey schema kv.1 = false := allowed_not_warned _ _ hA
      rw [if_pos hA]
      refine ⟨fun a => ?_, ?_⟩
      · rw [(ih _).1 a, keys_setKey_mem]
        constructor
        · rintro ((ha | rfl) | ⟨hat, haA⟩)
          · exact Or.inl ha
          · exact Or.inr ⟨by simp [keys], hA⟩
          · exact Or.inr ⟨by simp [keys]; exact Or.inr (by simpa [keys] using hat), haA⟩
        · rintro (ha | ⟨hmem, haA⟩)
          · exact Or.inl (Or.inl ha)
          · rcases (by simpa [keys] using hmem : a = kv.1 ∨ a ∈ keys t) with rfl | hat
            · exact Or.inl (Or.inr rfl)
            · exact Or.inr ⟨hat, haA⟩
      · rw [(ih _).2]
        simp [keys, List.filter_cons, hW]
    · rw [if_neg hA]
      have hA' : allowedKey schema kv.1 = false := by simpa using hA
      by_cases hW : warnedKey schema kv.1 = true
      · rw [if_pos hW]
        refine ⟨fun a => ?_, ?_⟩
        · rw [(ih _).1 a]
          constructor
          · rintro (ha | ⟨hat, haA⟩)
            · exact Or.inl ha
            · exact Or.inr ⟨by simp [keys]; exact Or.inr (by simpa [keys] using hat), haA⟩
          · rintro (ha | ⟨hmem, haA⟩)
            · exact Or.inl ha
            · rcases (by simpa [keys] using hmem : a = kv.1 ∨ a ∈ keys t) with rfl | hat
              · rw [haA] at hA'
                exact absurd hA' (by simp)
              · exact Or.inr ⟨hat, haA⟩
        · rw [(ih _).2]
          simp [keys, List.filter_cons, hW]
      · rw [if_neg hW]
        have hW' : warnedKey schema kv.1 = false := by simpa using hW
        refine ⟨fun a => ?_, ?_⟩
        · rw [(ih _).1 a]
          constructor
          · rintro (ha | ⟨hat, haA⟩)
            · exact Or.inl ha
            · exact Or.inr ⟨by simp [keys]; exact Or.inr (by simpa [keys] using hat), haA⟩
          · rintro (ha | ⟨hmem, haA⟩)
            · exact Or.inl ha
            · rcases (by simpa [keys] using hmem : a = kv.1 ∨ a ∈ keys t) with rfl | hat
              · rw [haA] at hA'
                exact absurd hA' (by simp)
              · exact Or.inr ⟨hat, haA⟩
        · rw [(ih _).2]
          simp [keys, List.filter_cons, hW']

/-- Claim C1: for every raw filter input and every schema, every key of
the mapping returned by `validateFilterFields` is either `createdAt`,
`updatedAt`, or a key present in the schema whose metadata is an object
containing the marker attribute `q`; and every key of the result was
present in the parsed input mapping. -/
theorem C1_sanitized_keys_allowlisted (env : JsEnv) (filter : RawFilter)
    (schema : List (String × SchemaField)) (key : String)
    (h : key ∈ keys (validateFilterFields env filter schema).1) :
    (key = "createdAt" ∨ key = "updatedAt" ∨
      ∃ attrs, List.lookup key schema = some (.objf attrs) ∧ "q" ∈ attrs) ∧
    key ∈ keys (stringToObject env filter) := by
  unfold validateFilterFields at h
  rw [(validate_foldl_spec schema _ _ ([], [])).1 key] at h
  rcases h with h | ⟨hmem, hA⟩
  · simp [keys] at h
  · refine ⟨?_, hmem⟩
    unfold allowedKey at hA
    simp only [Bool.or_eq_true, beq_iff_eq] at hA
    rcases hA with (hQ | hc) | hu
    · right; right
      cases hL : List.lookup key schema with
      | none => rw [hL] at hQ; simp [isQueryableField] at hQ
      | some f =>
        cases f with
        | atom => rw [hL] at hQ; simp [isQueryableField] at hQ
        | objf attrs =>
          rw [hL] at hQ
          exact ⟨attrs, rfl, by simpa [isQueryableField] using hQ⟩
    · exact Or.inl hc
    · exact Or.inr (Or.inl hu)

/-- Witness for C1: the schema marks `name` queryable, the filter
supplies it, and the theorem applies at that input. -/
theorem C1_sanitized_keys_allowlisted_witness :
    ("name" = "createdAt" ∨ "name" = "updatedAt" ∨
      ∃ attrs, List.lookup "name" [("name", SchemaField.objf ["q"])]
        = some (.objf attrs) ∧ "q" ∈ attrs) ∧
    "name" ∈ keys (stringToObject jsEnv (.obj [("name", JsValue.str "Bob")])) :=
  C1_sanitized_keys_allowlisted jsEnv (.obj [("name", JsValue.str "Bob")])
    [("name", SchemaField.objf ["q"])] "name" (by decide)

/-- Counterexample to claim C2: the key `secret` is unknown to the empty
schema and is rejected, but the emitted diagnostic log is empty — the
source only warns for keys that pass the schema-membership test, so a
schema-unknown key is dropped with no message, contrary to the claim
that every rejected key is named in a diagnostic. -/
theorem C2_rejection_warning_cex :
    (validateFilterFields jsEnv (.obj [("secret", JsValue.str "x")]) []).1 = [] ∧
    (validateFilterFields jsEnv (.obj [("secret", JsValue.str "x")]) []).2 = [] :=
  ⟨rfl, rfl⟩

/-- Claim C2 as amended: every key of the parsed filter that is not
allow-listed is omitted from the result, and no error is thrown (the
function is total); a diagnostic naming the field is emitted exactly for
the rejected keys that are present in the schema (with metadata lacking
the queryable marker) — schema-unknown keys are dropped silently, with
no diagnostic. -/
theorem C2_rejection_handling_amended (env : JsEnv) (filter : RawFilter)
    (schema : List (String × SchemaField)) :
    (validateFilterFields env filter schema).2
      = (keys (stringToObject env filter)).filter (warnedKey schema) ∧
    ∀ key, allowedKey schema key = false →
      key ∉ keys (validateFilterFields env filter schema).1 := by
  constructor
  · unfold validateFilterFields
    rw [(validate_foldl_spec schema _ _ ([], [])).2]
    simp
  · intro key hk hmem
    unfold validateFilterFields at hmem
    rw [(validate_foldl_spec schema _ _ ([], [])).1 key] at hmem
    rcases hmem with h | ⟨_, hA⟩
    · simp [keys] at h
    · rw [hk] at hA
      exact absurd hA (by simp)

/-- Witness for the amended C2: `age` is in the schema but not
queryable, so it is warned about; `secret` is schema-unknown, so it is
dropped from the result (and, per the amended reading, silently). -/
theorem C2_rejection_handling_amended_witness :
    (validateFilterFields jsEnv (.obj [("age", JsValue.num 30), ("secret", JsValue.str "x")])
        [("name", SchemaField.objf ["q"]), ("age", SchemaField.objf [])]).2 = ["age"] ∧
    "secret" ∉ keys (validateFilterFields jsEnv
        (.obj [("age", JsValue.num 30), ("secret", JsValue.str "x")])
        [("name", SchemaField.objf ["q"]), ("age", SchemaField.objf [])]).1 := by
  have h := C2_rejection_handling_amended jsEnv
      (.obj [("age", JsValue.num 30), ("secret", JsValue.str "x")])
      [("name", SchemaField.objf ["q"]), ("age", SchemaField.objf [])]
  exact ⟨h.1.trans (by rfl), h.2 "secret" (by rfl)⟩

/-- Claim C3: every filter expressible in the bracketed string format —
i.e. every mapping that the string path produces — gives the same
validation result when passed in as an already-parsed mapping as its
string form gives through the string path; and a mapping input passes
through `stringToObject` unchanged. -/
theorem C3_object_path_refines_string_path :
    (∀ (env : JsEnv) (schema : List (String × SchemaField)) (s : String),
        validateFilterFields env (.obj (stringToObject env (.str s))) schema
          = validateFilterFields env (.str s) schema) ∧
    (∀ (env : JsEnv) (m : List (String × JsValue)), stringToObject env (.obj m) = m) :=
  ⟨fun _ _ _ => rfl, fun _ _ => rfl⟩

/-- Counterexample to claim C4: the claim says a value containing `:` is
split on the **first** `:` so that the operand keeps later colons; on
`k=eq:a:b` that predicts operand `a:b`, but the source destructures
`value.split(":")`, keeping only the first two segments, so the stored
operand is `a`. -/
theorem C4_colon_operand_cex :
    stringToObject jsEnv (.str "\x7bk=eq:a:b\x7d")
      = [("k", JsValue.obj [("eq", JsValue.str "a")])] ∧
    ¬ JsValue.str "a" = JsValue.str "a:b" := by
  refine ⟨rfl, fun h => ?_⟩
  rw [JsValue.str.injEq] at h
  exact absurd h (by decide)

/-- Claim C4 as amended: when a value contains `:`, it is split on `:`
with every segment trimmed; the first segment becomes the operator and
the second the operand (later segments are discarded); the stored entry
is an operator object whose operand is a `Date` exactly when
`Date.parse` of the operand is truthy (neither `NaN` nor the epoch
timestamp `0`), and the unconverted operand string otherwise.  In
particular `parse` of the bracketed text `createdAt=gte:2023-01-01`
yields a `Date` operand, while an epoch operand such as `1970-01-01`
stays a string. -/
theorem C4_operator_parsing_amended :
    (∀ (env : JsEnv) (value operator operand : String) (rest : List String),
        jsIncludes ':' value = true →
        (jsSplit ':' value).map jsTrim = operator :: operand :: rest →
        parseValue env value =
          .obj [(operator,
            match env.dateParse operand with
            | some t => if t ≠ 0 then JsValue.date operand else JsValue.str operand
            | none => JsValue.str operand)]) ∧
    stringToObject jsEnv (.str "\x7bcreatedAt=gte:2023-01-01\x7d")
      = [("createdAt", JsValue.obj [("gte", JsValue.date "2023-01-01")])] ∧
    parseValue jsEnv "gte:1970-01-01" = JsValue.obj [("gte", JsValue.str "1970-01-01")] := by
  refine ⟨?_, rfl, rfl⟩
  intro env value operator operand rest hcol hsplit
  rcases hD : env.dateParse operand with _ | t
  · simp [parseValue, hcol, hsplit, hD]
  · by_cases ht : t = 0
    · simp [parseValue, hcol, hsplit, hD, ht]
    · simp [parseValue, hcol, hsplit, hD, ht]

/-- Witness for the amended C4 at the concrete operator value
`gte:2023-01-01`. -/
theorem C4_operator_parsing_amended_witness :
    parseValue jsEnv "gte:2023-01-01" = JsValue.obj [("gte", JsValue.date "2023-01-01")] := by
  have h := C4_operator_parsing_amended.1 jsEnv "gte:2023-01-01" "gte" "2023-01-01" []
      (by rfl) (by rfl)
  exact h.trans (by rfl)

/-- Counterexample to claim C5: the claim says a pair is split on the
**first** `=` so that the value keeps later equals signs; on the pair
`a=b=c` that predicts value `b=c`, but the source destructures
`pair.split("=")`, keeping only the first two segments, so the stored
value is `b`. -/
theorem C5_equals_split_cex :
    stringToObject jsEnv (.str "\x7ba=b=c\x7d") = [("a", JsValue.str "b")] ∧
    ¬ JsValue.str "b" = JsValue.str "b=c" := by
  refine ⟨rfl, fun h => ?_⟩
  rw [JsValue.str.injEq] at h
  exact absurd h (by decide)

/-- Claim C5 as amended: each comma-separated pair is split on `=` with
every segment trimmed; the first segment is the key and the second the
value (segments after the second `=` are discarded, so the value does
not keep further `=` characters); a pair whose key or value is missing,
or empty after trimming, is silently skipped. -/
theorem C5_pair_splitting_amended :
    (∀ (env : JsEnv) (pair key value : String) (rest : List String),
        (jsSplit '=' pair).map jsTrim = key :: value :: rest →
        parsePair env pair =
          if key ≠ "" ∧ value ≠ "" then some (key, parseValue env value) else none) ∧
    (∀ (env : JsEnv) (pair key : String),
        (jsSplit '=' pair).map jsTrim = [key] →
        parsePair env pair = none) := by
  constructor
  · intro env pair key value rest hsplit
    unfold parsePair
    rw [hsplit]
  · intro env pair key hsplit
    unfold parsePair
    rw [hsplit]

/-- Witness for the amended C5 at the concrete pair `a=b=c`: the third
segment is discarded and the stored value is the string `b`. -/
theorem C5_pair_splitting_amended_witness :
    parsePair jsEnv "a=b=c" = some ("a", JsValue.str "b") := by
  have h := C5_pair_splitting_amended.1 jsEnv "a=b=c" "a" "b" ["c"] (by rfl)
  exact h.trans (by rfl)

/-- Claim C6: for every pair whose value contains no `:`, the stored
value is the `Number` coercion of the trimmed value whenever that
coercion is not `NaN` — including when it is `0` — and the raw trimmed
string otherwise; in particular the bracketed text `age=30` parses to
the numeric entry `age = 30`. -/
theorem C6_numeric_value_coercion :
    (∀ (env : JsEnv) (pair key value : String) (rest : List String),
        (jsSplit '=' pair).map jsTrim = key :: value :: rest →
        key ≠ "" → value ≠ "" →
        jsIncludes ':' value = false →
        parsePair env pair = some (key,
          match env.toNumber value with
          | some n => JsValue.num n
          | none => JsValue.str value)) ∧
    (∀ (env : JsEnv) (value : String),
        jsIncludes ':' value = false → env.toNumber value = some 0 →
        parseValue env value = JsValue.num 0) ∧
    stringToObject jsEnv (.str "\x7bage=30\x7d") = [("age", JsValue.num 30)] := by
  refine ⟨?_, ?_, rfl⟩
  · intro env pair key value rest hsplit hk hv hcol
    unfold parsePair
    rw [hsplit]
    rcases hN : env.toNumber value with _ | n
    · simp [parseValue, hcol, hN, hk, hv]
    · simp [parseValue, hcol, hN, hk, hv]
  · intro env value hcol hzero
    simp [parseValue, hcol, hzero]

/-- Witness for C6 at the concrete pair `zero=0`: the coercion result
`0` is still stored as a number, not dropped as falsy. -/
theorem C6_numeric_value_coercion_witness :
    parsePair jsEnv "zero=0" = some ("zero", JsValue.num 0) := by
  have h := C6_numeric_value_coercion.1 jsEnv "zero=0" "zero" "0" []
      (by rfl) (by decide) (by decide) (by rfl)
  exact h.trans (by rfl)

/-- Claim C7: `buildFilterObject` fails with the invalid-format error
when its nonempty input is not valid JSON text, and the error is
propagated to the caller (`Except.error`), not swallowed. -/
theorem C7_invalid_json_error (env : JsEnv) (s : String)
    (hne : s ≠ "") (hbad : env.jsonParse s = none) :
    buildFilterObject env (.str s) = .error "Invalid filter query format" := by
  simp only [buildFilterObject]
  rw [if_neg hne, hbad]

/-- Witness for C7 at the concrete non-JSON text of the claim. -/
theorem C7_invalid_json_error_witness :
    buildFilterObject jsEnv (.str "\x7bnot json") = .error "Invalid filter query format" :=
  C7_invalid_json_error jsEnv "\x7bnot json" (by decide) (by rfl)

/-- Claim C8: for every well-formed JSON text `s` (one the host
`JSON.parse` accepts; the empty text is not well-formed),
`buildFilterObject` returns exactly the parsed value, with no further
validation of its keys or values. -/
theorem C8_json_passthrough (env : JsEnv) (s : String) (v : JsValue)
    (hempty : env.jsonParse "" = none) (hs : env.jsonParse s = some v) :
    buildFilterObject env (.str s) = .ok v := by
  by_cases h0 : s = ""
  · rw [h0, hempty] at hs
    exact absurd hs (by simp)
  · simp only [buildFilterObject]
    rw [if_neg h0, hs]

/-- Witness for C8 at the concrete well-formed JSON text of the empty
object. -/
theorem C8_json_passthrough_witness :
    buildFilterObject jsEnv (.str "\x7b\x7d") = .ok (JsValue.obj []) :=
  C8_json_passthrough jsEnv "\x7b\x7d" (JsValue.obj []) (by rfl) (by rfl)

/-- Claim C9: `buildFilterObject` returns the empty mapping when its
input is `undefined`, `null`, or the empty string. -/
theorem C9_falsy_empty_mapping (env : JsEnv) :
    buildFilterObject env .undefined = .ok (.obj []) ∧
    buildFilterObject env .nullv = .ok (.obj []) ∧
    buildFilterObject env (.str "") = .ok (.obj []) :=
  ⟨rfl, rfl, rfl⟩

/-- Claim C10: on nonempty text encoding a JSON scalar,
`buildFilterObject` returns that scalar itself — a number, boolean or
null, none of which is a key-value mapping. -/
theorem C10_scalar_passthrough :
    buildFilterObject jsEnv (.str "5") = .ok (JsValue.num 5) ∧
    buildFilterObject jsEnv (.str "true") = .ok (JsValue.bool true) ∧
    buildFilterObject jsEnv (.str "null") = .ok JsValue.nullv ∧
    (∀ m : List (String × JsValue), JsValue.num 5 ≠ JsValue.obj m) ∧
    (∀ m : List (String × JsValue), JsValue.bool true ≠ JsValue.obj m) ∧
    (∀ m : List (String × JsValue), JsValue.nullv ≠ JsValue.obj m) := by
  refine ⟨rfl, rfl, rfl, ?_, ?_, ?_⟩ <;> exact fun m h => JsValue.noConfusion h

end QueryFilters
